import Mathlib

/-!
Shallow embedding of the validog query engine (src/index.js, src/lib/utils.js,
src/lib/validations.js, src/lib/errors.js) and verification of its spec.

JavaScript strings are modelled as lists of characters, JS numbers as rationals,
absent/undefined values as Option, and thrown errors as Except.  The breed
catalog (dogs.json) is external data, so every operation is parameterized by an
arbitrary catalog.
-/

/-- JavaScript strings, modelled as lists of characters. -/
abbrev Str := List Char

/-- JS String.prototype.trim: drop leading and trailing whitespace. -/
def trimStr (s : Str) : Str :=
  ((s.dropWhile Char.isWhitespace).reverse.dropWhile Char.isWhitespace).reverse

/-- JS String.prototype.toLowerCase, character by character. -/
def toLowerStr (s : Str) : Str :=
  s.map Char.toLower

/-- normalizeBreed from src/index.js: breed.trim().toLowerCase(). -/
def normalizeBreed (breed : Str) : Str :=
  toLowerStr (trimStr breed)

/-- JS hay.includes(sub): sub occurs contiguously inside hay. -/
def jsIncludes (hay sub : Str) : Bool :=
  decide (sub <:+: hay)

/-- JS truthiness of an optional string: present and non-empty. -/
def truthyStr (o : Option Str) : Bool :=
  match o with
  | some s => !s.isEmpty
  | none => false

/-- JS (o || dflt) for an optional string value. -/
def jsOrStr (o : Option Str) (dflt : Str) : Str :=
  match o with
  | some s => if s.isEmpty then dflt else s
  | none => dflt

/-- levenshteinDistance from src/lib/utils.js.  The DP recurrence is stated
directly: the matrix cell formula min(delete+1, insert+1, diagonal+cost) with
cost 0 on equal characters, and the two base rows/columns. -/
def levenshteinDistance : Str → Str → Nat
  | [], b => b.length
  | a, [] => a.length
  | x :: xs, y :: ys =>
    let cost : Nat := if y == x then 0 else 1
    Nat.min (levenshteinDistance xs (y :: ys) + 1)
      (Nat.min (levenshteinDistance (x :: xs) ys + 1)
        (levenshteinDistance xs ys + cost))
termination_by a b => a.length + b.length

lemma levenshteinDistance_nil_left (b : Str) : levenshteinDistance [] b = b.length := by
  cases b <;> simp [levenshteinDistance]

lemma levenshteinDistance_nil_right (a : Str) : levenshteinDistance a [] = a.length := by
  cases a <;> simp [levenshteinDistance]

lemma levenshteinDistance_cons (x : Char) (xs : Str) (y : Char) (ys : Str) :
    levenshteinDistance (x :: xs) (y :: ys) =
      Nat.min (levenshteinDistance xs (y :: ys) + 1)
        (Nat.min (levenshteinDistance (x :: xs) ys + 1)
          (levenshteinDistance xs ys + if y == x then 0 else 1)) := by
  rw [levenshteinDistance]

lemma levenshteinDistance_self (a : Str) : levenshteinDistance a a = 0 := by
  induction a with
  | nil => simp [levenshteinDistance]
  | cons x xs ih =>
    rw [levenshteinDistance_cons]
    simp [ih]

lemma levenshteinDistance_comm (a b : Str) : levenshteinDistance a b = levenshteinDistance b a := by
  induction a generalizing b with
  | nil => simp [levenshteinDistance_nil_left, levenshteinDistance_nil_right]
  | cons x xs ihx =>
    induction b with
    | nil => simp [levenshteinDistance_nil_left, levenshteinDistance_nil_right]
    | cons y ys ihy =>
      rw [levenshteinDistance_cons, levenshteinDistance_cons]
      rw [ihx (y :: ys), ihy, ihx ys]
      have hc : (if y == x then (0 : Nat) else 1) = (if x == y then 0 else 1) := by
        by_cases h : x = y
        · simp [h]
        · have h' : ¬ y = x := fun hyx => h hyx.symm
          simp [h, h']
      rw [hc]
      generalize levenshteinDistance ys (x :: xs) = A
      generalize levenshteinDistance (y :: ys) xs = B
      generalize levenshteinDistance ys xs = C
      generalize (if (x == y) = true then (0 : Nat) else 1) = c
      show min (B + 1) (min (A + 1) (C + c)) = min (A + 1) (min (B + 1) (C + c))
      exact min_left_comm _ _ _

lemma levenshteinDistance_eq_zero {a b : Str} (h : levenshteinDistance a b = 0) : a = b := by
  induction a generalizing b with
  | nil =>
    rw [levenshteinDistance_nil_left] at h
    exact (List.eq_nil_of_length_eq_zero h).symm
  | cons x xs ih =>
    cases b with
    | nil =>
      rw [levenshteinDistance_nil_right] at h
      simp at h
    | cons y ys =>
      rw [levenshteinDistance_cons] at h
      rcases Nat.min_eq_zero_iff.mp h with h1 | h2
      · omega
      · rcases Nat.min_eq_zero_iff.mp h2 with h3 | h4
        · omega
        · have hcost : (if y == x then (0 : Nat) else 1) = 0 := by omega
          have hxy : y = x := by
            by_contra hne
            simp [hne] at hcost
          have hd : levenshteinDistance xs ys = 0 := by omega
          rw [hxy, ih hd]

/-- JS parseInt(s, 10) as used on the digit chunks of a lifespan string:
reads the leading run of decimal digits, NaN (none) when there is none. -/
def parseIntJS (s : Str) : Option Nat :=
  let ds := s.takeWhile Char.isDigit
  if ds.isEmpty then none
  else some (ds.foldl (fun acc c => 10 * acc + (c.toNat - '0'.toNat)) 0)

/-- parseLifespanAverage from src/lib/utils.js: strip everything but digits and
dashes, normalize en/em dashes, split on the dash, average the first two parts
or take the single part; none when nothing parses. -/
def parseLifespanAverage (lifespan : Str) : Option ℚ :=
  if lifespan.isEmpty then none
  else
    let cleaned := lifespan.filter (fun c => c.isDigit || c == '-' || c == '–' || c == '—')
    let normalized := trimStr (cleaned.map (fun c => if c == '–' || c == '—' then '-' else c))
    if normalized.isEmpty then none
    else
      let parts := ((normalized.splitOn '-').map trimStr).filter (fun p => !p.isEmpty)
      match parts with
      | [] => none
      | [p] => (parseIntJS p).map (fun n => (n : ℚ))
      | p0 :: p1 :: _ =>
        match parseIntJS p0, parseIntJS p1 with
        | some a, some b => some (((a : ℚ) + (b : ℚ)) / 2)
        | _, _ => none

/-- One weight entry of a Record: a {min, max} numeric range. -/
structure WeightEntry where
  min : ℚ
  max : ℚ
deriving DecidableEq

/-- weight field of a Record: per-unit ranges, either may be absent. -/
structure Weight where
  lbs : Option WeightEntry
  kgs : Option WeightEntry
deriving DecidableEq

/-- compatibility field of a Record; sub-fields may be absent in raw data. -/
structure Compatibility where
  children : Option Bool
  otherDogs : Option Bool
  cats : Option Bool
deriving DecidableEq

/-- One catalog Record (a breed object from dogs.json).  Fields that JS code
guards with truthiness or typeof checks are Options. -/
structure Record where
  name : Str
  names : List (Str × Str)
  origin : Option Str
  size : Option Str
  energyLevel : Option Str
  trainability : Option Str
  shedding : Option Str
  groomingNeeds : Option Str
  temperament : List Str
  lifespan : Option Str
  compatibility : Option Compatibility
  weight : Option Weight
deriving DecidableEq

/-- Errors thrown by the library: NonEmptyStringError carrying the field name
(src/lib/errors.js), TypeError with a message, and the "not found" Error thrown
by compareBreeds carrying the missing query. -/
inductive JsError where
  | nonEmptyString (fieldName : Str)
  | typeError (msg : Str)
  | notFound (breed : Str)
deriving DecidableEq

/-- validateNonEmptyString from src/lib/validations.js: rejects strings blank
after trimming (the not-a-string case is excluded by typing). -/
def validateNonEmptyString (value : Str) (fieldName : Str) : Except JsError Unit :=
  if (trimStr value).isEmpty then .error (.nonEmptyString fieldName) else .ok ()

/-- validateNonNegativeNumber from src/lib/validations.js. -/
def validateNonNegativeNumber (value : ℚ) (fieldName : Str) : Except JsError Unit :=
  if value < 0 then .error (.typeError fieldName) else .ok ()

/-- UNIT_ALIASES.kgs from src/lib/validations.js. -/
def kgsAliases : List Str :=
  ["kg".data, "kgs".data, "kilogram".data, "kilograms".data, "kilo".data, "kilos".data]

/-- UNIT_ALIASES.lbs from src/lib/validations.js. -/
def lbsAliases : List Str :=
  ["lb".data, "lbs".data, "pound".data, "pounds".data]

/-- validateUnit from src/lib/validations.js: lowercase, trim, resolve through
the alias table to the canonical "kgs"/"lbs", otherwise a TypeError. -/
def validateUnit (unit : Str) : Except JsError Str :=
  let normalized := trimStr (toLowerStr unit)
  if kgsAliases.contains normalized then .ok ("kgs".data)
  else if lbsAliases.contains normalized then .ok ("lbs".data)
  else .error (.typeError ("Unit must be lbs-like or kgs-like".data))

/-- Options object for findBreed: { fuzzy = true, lang = en }. -/
structure FindOptions where
  fuzzy : Bool := true
  lang : Str := "en".data
deriving DecidableEq

/-- Comparison-name selection inside findBreed (src/index.js lines 41-45): the
name used for matching is names[lang] when that entry exists and is truthy,
otherwise the name field. -/
def comparisonName (dog : Record) (lang : Str) : Str :=
  match (dog.names.find? (fun p => p.1 == lang)).map Prod.snd with
  | some s => if s.isEmpty then dog.name else s
  | none => dog.name

/-- findBreed from src/index.js: first Record whose comparison name matches the
normalized query, bidirectional containment when fuzzy, exact equality of
normalized strings otherwise. -/
def findBreed (catalog : List Record) (breed : Str) (opts : FindOptions) : Option Record :=
  let normalized := normalizeBreed breed
  catalog.find? (fun dog =>
    let normName := normalizeBreed (comparisonName dog opts.lang)
    if opts.fuzzy then jsIncludes normName normalized || jsIncludes normalized normName
    else normName == normalized)

/-- getDogBreedData from src/index.js: validate then findBreed. -/
def getDogBreedData (catalog : List Record) (breed : Str) (opts : FindOptions) :
    Except JsError (Option Record) := do
  let _ ← validateNonEmptyString breed ("Breed name".data)
  pure (findBreed catalog breed opts)

/-- Body of the getDogsByWeightRange filter for one dog, after the bounds have
been sorted and the unit normalized. -/
def weightRangeKeeps (normalizedUnit : Str) (sortedMin sortedMax : ℚ) (dog : Record) : Bool :=
  match dog.weight with
  | none => false
  | some w =>
    match (if normalizedUnit == "kgs".data then w.kgs else w.lbs) with
    | none => false
    | some wd => !(wd.max < sortedMin || wd.min > sortedMax)

/-- getDogsByWeightRange from src/index.js: sort the two bounds, normalize the
unit through validateUnit, keep dogs whose stored range overlaps the query
range (inclusive interval overlap). -/
def getDogsByWeightRange (catalog : List Record) (min max : ℚ) (unit : Str) :
    Except JsError (List Record) := do
  let sortedMin := Min.min min max
  let sortedMax := Max.max min max
  let normalizedUnit ← validateUnit unit
  pure (catalog.filter (weightRangeKeeps normalizedUnit sortedMin sortedMax))

/-- Substring-pass predicate of fuzzySearchBreeds: bidirectional containment of
the normalized dog name and the normalized search term. -/
def substrMatch (normalized : Str) (dog : Record) : Bool :=
  let dogName := normalizeBreed dog.name
  jsIncludes dogName normalized || jsIncludes normalized dogName

/-- Fuzzy-pass predicate of fuzzySearchBreeds: not a substring match, and edit
distance within maxDistance. -/
def fuzzyFilterPred (normalized : Str) (maxDistance : ℚ) (dog : Record) : Bool :=
  let dogName := normalizeBreed dog.name
  if jsIncludes dogName normalized || jsIncludes normalized dogName then false
  else decide ((levenshteinDistance normalized dogName : ℚ) ≤ maxDistance)

/-- A fuzzy candidate carrying the transient _matchScore attached by the map
step ({ ...dog, _matchScore }). -/
structure Scored where
  dog : Record
  matchScore : Nat
deriving DecidableEq

/-- Edit distance of a dog's normalized name from the normalized term: the
value stored in _matchScore. -/
def levScore (normalized : Str) (dog : Record) : Nat :=
  levenshteinDistance normalized (normalizeBreed dog.name)

/-- Fuzzy matches of fuzzySearchBreeds before sorting: filter then attach
_matchScore. -/
def scoredFuzzyMatches (catalog : List Record) (normalized : Str) (maxDistance : ℚ) :
    List Scored :=
  (catalog.filter (fuzzyFilterPred normalized maxDistance)).map
    (fun dog => { dog := dog, matchScore := levScore normalized dog })

/-- Comparator of the fuzzy sort, (a, b) => a._matchScore - b._matchScore:
ascending numeric order on the attached score. -/
def scoredLe (a b : Scored) : Bool :=
  a.matchScore ≤ b.matchScore

/-- Fuzzy matches after the stable sort by _matchScore and the strip of
_matchScore ((a, b) => a._matchScore - b._matchScore, then rest-spread).
JS Array.prototype.sort is required to be stable, hence the merge sort. -/
def sortedFuzzy (catalog : List Record) (normalized : Str) (maxDistance : ℚ) : List Record :=
  ((scoredFuzzyMatches catalog normalized maxDistance).mergeSort scoredLe).map (·.dog)

/-- Result list of fuzzySearchBreeds after validation: substring matches in
catalog order, then fuzzy matches sorted by score. -/
def fuzzySearchList (catalog : List Record) (normalized : Str) (maxDistance : ℚ) :
    List Record :=
  catalog.filter (substrMatch normalized) ++ sortedFuzzy catalog normalized maxDistance

/-- fuzzySearchBreeds from src/index.js. -/
def fuzzySearchBreeds (catalog : List Record) (searchTerm : Str) (maxDistance : ℚ) :
    Except JsError (List Record) := do
  let _ ← validateNonEmptyString searchTerm ("Search term".data)
  let _ ← validateNonNegativeNumber maxDistance ("maxDistance".data)
  pure (fuzzySearchList catalog (normalizeBreed searchTerm) maxDistance)

/-- One field triple of the comparison object: both values and the strict
equality flag. -/
structure FieldComparison where
  breed1 : Option Str
  breed2 : Option Str
  isMatch : Bool
deriving DecidableEq

/-- One compatibility sub-key triple: values defaulted with || false, and the
strict equality flag on the raw optional values. -/
structure BoolComparison where
  breed1 : Bool
  breed2 : Bool
  isMatch : Bool
deriving DecidableEq

/-- compatibility part of the comparison object. -/
structure CompatComparison where
  breed1 : Option Compatibility
  breed2 : Option Compatibility
  children : BoolComparison
  otherDogs : BoolComparison
  cats : BoolComparison
deriving DecidableEq

/-- weight part of the comparison object: raw side-by-side data. -/
structure WeightComparison where
  breed1 : Option Weight
  breed2 : Option Weight
deriving DecidableEq

/-- comparison sub-object produced by compareBreeds. -/
structure ComparisonDetails where
  size : FieldComparison
  energyLevel : FieldComparison
  trainability : FieldComparison
  shedding : FieldComparison
  lifespan : FieldComparison
  groomingNeeds : FieldComparison
  origin : FieldComparison
  compatibility : CompatComparison
  weight : WeightComparison
deriving DecidableEq

/-- Full result object of compareBreeds. -/
structure Comparison where
  breed1 : Record
  breed2 : Record
  comparison : ComparisonDetails
deriving DecidableEq

/-- Build one field triple (dog1.f, dog2.f, dog1.f === dog2.f). -/
def mkFieldComparison (a b : Option Str) : FieldComparison :=
  { breed1 := a, breed2 := b, isMatch := a == b }

/-- Optional chain dog.compatibility?.k for a compatibility sub-key. -/
def optCompat (dog : Record) (proj : Compatibility → Option Bool) : Option Bool :=
  match dog.compatibility with
  | some c => proj c
  | none => none

/-- Build one compatibility sub-key triple, with || false value defaulting and
strict equality of the raw optional-chain values. -/
def mkBoolComparison (d1 d2 : Record) (proj : Compatibility → Option Bool) : BoolComparison :=
  { breed1 := (optCompat d1 proj).getD false
    breed2 := (optCompat d2 proj).getD false
    isMatch := optCompat d1 proj == optCompat d2 proj }

/-- The comparison object built by compareBreeds from two resolved records. -/
def mkComparison (d1 d2 : Record) : Comparison :=
  { breed1 := d1
    breed2 := d2
    comparison :=
    { size := mkFieldComparison d1.size d2.size
      energyLevel := mkFieldComparison d1.energyLevel d2.energyLevel
      trainability := mkFieldComparison d1.trainability d2.trainability
      shedding := mkFieldComparison d1.shedding d2.shedding
      lifespan := mkFieldComparison d1.lifespan d2.lifespan
      groomingNeeds := mkFieldComparison d1.groomingNeeds d2.groomingNeeds
      origin := mkFieldComparison d1.origin d2.origin
      compatibility :=
      { breed1 := d1.compatibility
        breed2 := d2.compatibility
        children := mkBoolComparison d1 d2 Compatibility.children
        otherDogs := mkBoolComparison d1 d2 Compatibility.otherDogs
        cats := mkBoolComparison d1 d2 Compatibility.cats }
      weight := { breed1 := d1.weight, breed2 := d2.weight } } }

/-- compareBreeds from src/index.js: validate both names, resolve both with
fuzzy matching, throw the not-found Error for the first missing one, else build
the comparison object. -/
def compareBreeds (catalog : List Record) (breed1 breed2 : Str) :
    Except JsError Comparison := do
  let _ ← validateNonEmptyString breed1 ("Breed 1".data)
  let _ ← validateNonEmptyString breed2 ("Breed 2".data)
  let dog1 ← getDogBreedData catalog breed1 { fuzzy := true }
  let dog2 ← getDogBreedData catalog breed2 { fuzzy := true }
  match dog1 with
  | none => .error (.notFound breed1)
  | some d1 =>
    match dog2 with
    | none => .error (.notFound breed2)
    | some d2 => pure (mkComparison d1 d2)

/-- compatibility sub-criteria of getRecommendedBreeds preferences; a sub-key
is a constraint only when present as a boolean. -/
structure CompatibilityCriteria where
  children : Option Bool := none
  otherDogs : Option Bool := none
  cats : Option Bool := none
deriving DecidableEq

/-- weightRange sub-criteria of getRecommendedBreeds preferences. -/
structure WeightRangeCriteria where
  min : ℚ
  max : ℚ
  unit : Option Str := none
deriving DecidableEq

/-- preferences object of getRecommendedBreeds; absent fields impose no
constraint, minLifespan destructures with default 0. -/
structure Preferences where
  size : Option Str := none
  energyLevel : Option Str := none
  trainability : Option Str := none
  shedding : Option Str := none
  groomingNeeds : Option Str := none
  origin : Option Str := none
  compatibility : Option CompatibilityCriteria := none
  weightRange : Option WeightRangeCriteria := none
  minLifespan : ℚ := 0
deriving DecidableEq

/-- One scalar clause of the recommendation predicate, mirroring
"if (want && dog.field !== want) return false". -/
def scalarOk (want : Option Str) (stored : Option Str) : Bool :=
  !truthyStr want || stored == want

/-- compatibility clause of the recommendation predicate (src/index.js lines
409-414): once a compatibility object is supplied, a dog without one fails, and
every sub-key supplied as a boolean must equal the dog's sub-field. -/
def compatOk (p : Preferences) (dog : Record) : Bool :=
  match p.compatibility with
  | none => true
  | some cc =>
    match dog.compatibility with
    | none => false
    | some dc =>
      (match cc.children with
       | some b => dc.children == some b
       | none => true) &&
      (match cc.otherDogs with
       | some b => dc.otherDogs == some b
       | none => true) &&
      (match cc.cats with
       | some b => dc.cats == some b
       | none => true)

/-- Weight data selected inside the recommendation weight clause: the unit
string defaults through || to lbs, and kgs data is used exactly when that
string is literally "kgs". -/
def selectedWeightData (wr : WeightRangeCriteria) (w : Weight) : Option WeightEntry :=
  if jsOrStr wr.unit ("lbs".data) == "kgs".data then w.kgs else w.lbs

/-- weightRange clause of the recommendation predicate (src/index.js lines
415-425): with a weightRange supplied, a dog without weight data fails, a dog
without data for the selected unit fails, and the stored range must overlap
the raw [min, max] as given (no auto-sorting). -/
def weightOk (p : Preferences) (dog : Record) : Bool :=
  match p.weightRange with
  | none => true
  | some wr =>
    match dog.weight with
    | none => false
    | some w =>
      match selectedWeightData wr w with
      | none => false
      | some wd => !(wd.max < wr.min || wd.min > wr.max)

/-- minLifespan clause of the recommendation predicate (src/index.js lines
426-431): with a positive minLifespan, a dog with a truthy lifespan fails only
when the parse succeeds with an average below the bound, and a dog without a
truthy lifespan fails outright. -/
def lifespanOk (p : Preferences) (dog : Record) : Bool :=
  if decide (0 < p.minLifespan) && truthyStr dog.lifespan then
    match dog.lifespan with
    | some ls =>
      match parseLifespanAverage ls with
      | some avg => !decide (avg < p.minLifespan)
      | none => true
    | none => true
  else
    !decide (0 < p.minLifespan)

/-- Whole conjunctive predicate of getRecommendedBreeds: each early
"return false" of the source becomes one conjunct. -/
def recommendPred (p : Preferences) (dog : Record) : Bool :=
  scalarOk p.size dog.size &&
  scalarOk p.energyLevel dog.energyLevel &&
  scalarOk p.trainability dog.trainability &&
  scalarOk p.shedding dog.shedding &&
  scalarOk p.groomingNeeds dog.groomingNeeds &&
  scalarOk p.origin dog.origin &&
  compatOk p dog &&
  weightOk p dog &&
  lifespanOk p dog

/-- getRecommendedBreeds from src/index.js (the preferences argument is an
object by typing, so the TypeError branch is unreachable here). -/
def getRecommendedBreeds (catalog : List Record) (p : Preferences) : List Record :=
  catalog.filter (recommendPred p)

deriving instance DecidableEq for Except

lemma scoredLe_trans (a b c : Scored) (hab : scoredLe a b = true) (hbc : scoredLe b c = true) :
    scoredLe a c = true := by
  simp only [scoredLe, decide_eq_true_eq] at *
  omega

lemma scoredLe_total (a b : Scored) : (scoredLe a b || scoredLe b a) = true := by
  simp only [scoredLe, Bool.or_eq_true, decide_eq_true_eq]
  omega

lemma mem_scoredFuzzyMatches {catalog : List Record} {n : Str} {maxD : ℚ} {s : Scored}
    (h : s ∈ scoredFuzzyMatches catalog n maxD) :
    s.dog ∈ catalog ∧ fuzzyFilterPred n maxD s.dog = true ∧ s.matchScore = levScore n s.dog := by
  rw [scoredFuzzyMatches] at h
  rcases List.mem_map.mp h with ⟨dog, hdog, rfl⟩
  rcases List.mem_filter.mp hdog with ⟨hmem, hpred⟩
  exact ⟨hmem, hpred, rfl⟩

lemma sortedFuzzy_perm (catalog : List Record) (n : Str) (maxD : ℚ) :
    (sortedFuzzy catalog n maxD).Perm (catalog.filter (fuzzyFilterPred n maxD)) := by
  rw [sortedFuzzy]
  have hp := (List.mergeSort_perm (scoredFuzzyMatches catalog n maxD) scoredLe).map (·.dog)
  rw [scoredFuzzyMatches, List.map_map] at hp
  simpa [scoredFuzzyMatches, Function.comp_def] using hp

lemma mem_sortedFuzzy {catalog : List Record} {n : Str} {maxD : ℚ} {r : Record}
    (h : r ∈ sortedFuzzy catalog n maxD) :
    r ∈ catalog ∧ fuzzyFilterPred n maxD r = true := by
  have := (sortedFuzzy_perm catalog n maxD).mem_iff.mp h
  exact ⟨(List.mem_filter.mp this).1, (List.mem_filter.mp this).2⟩

lemma sortedFuzzy_pairwise (catalog : List Record) (n : Str) (maxD : ℚ) :
    (sortedFuzzy catalog n maxD).Pairwise (fun a b => levScore n a ≤ levScore n b) := by
  rw [sortedFuzzy, List.pairwise_map]
  have hs := List.sorted_mergeSort scoredLe_trans scoredLe_total
    (scoredFuzzyMatches catalog n maxD)
  refine hs.imp_of_mem ?_
  intro a b ha hb hab
  have hmem := (List.mergeSort_perm (scoredFuzzyMatches catalog n maxD) scoredLe).subset
  have ha' := (mem_scoredFuzzyMatches (hmem ha)).2.2
  have hb' := (mem_scoredFuzzyMatches (hmem hb)).2.2
  simp only [scoredLe, decide_eq_true_eq] at hab
  rw [ha', hb'] at hab
  exact hab

lemma sortedFuzzy_filter_score (catalog : List Record) (n : Str) (maxD : ℚ) (d : Nat) :
    (sortedFuzzy catalog n maxD).filter (fun r => levScore n r == d) =
      (catalog.filter (fuzzyFilterPred n maxD)).filter (fun r => levScore n r == d) := by
  set L := scoredFuzzyMatches catalog n maxD with hL
  set S := L.mergeSort scoredLe with hS
  set q : Scored → Bool := fun s => s.matchScore == d with hq
  have hcq : ∀ s ∈ L.filter q, q s = true := fun s hs => (List.mem_filter.mp hs).2
  have hc_pair : (L.filter q).Pairwise (fun a b => scoredLe a b = true) := by
    refine List.pairwise_of_forall_mem_list ?_
    intro a ha b hb
    have ha' := (List.mem_filter.mp ha).2
    have hb' := (List.mem_filter.mp hb).2
    simp only [hq, beq_iff_eq] at ha' hb'
    simp only [scoredLe, ha', hb', decide_eq_true_eq]
    omega
  have hstab : (L.filter q).Sublist S :=
    List.sublist_mergeSort scoredLe_trans scoredLe_total hc_pair (List.filter_sublist L)
  have hsub2 : (L.filter q).Sublist (S.filter q) := by
    have := hstab.filter q
    rwa [List.filter_filter, List.filter_congr (fun x _ => by rw [Bool.and_self])] at this
  have hperm : (S.filter q).Perm (L.filter q) := (List.mergeSort_perm L scoredLe).filter q
  have heq : S.filter q = L.filter q :=
    ((hsub2.eq_of_length (hperm.length_eq.symm)).symm)
  have hmemS : ∀ s ∈ S, s.matchScore = levScore n s.dog := by
    intro s hs
    exact (mem_scoredFuzzyMatches ((List.mergeSort_perm L scoredLe).subset hs)).2.2
  rw [sortedFuzzy, ← hL, ← hS, List.filter_map]
  have hcongr : S.filter ((fun r => levScore n r == d) ∘ (·.dog)) = S.filter q := by
    refine List.filter_congr ?_
    intro s hs
    simp only [Function.comp, hq]
    rw [hmemS s hs]
  rw [hcongr, heq, hL, scoredFuzzyMatches, List.filter_map, List.map_map]
  simp [hq, Function.comp_def]

lemma fuzzySearchList_eq (catalog : List Record) (n : Str) (maxD : ℚ) :
    fuzzySearchList catalog n maxD =
      catalog.filter (substrMatch n) ++ sortedFuzzy catalog n maxD := rfl

/-- Concrete catalog record used by witnesses and counterexamples. -/
def baseDog : Record where
  name := "Dachshund".data
  names := []
  origin := some ("Germany".data)
  size := some ("small".data)
  energyLevel := some ("medium".data)
  trainability := some ("moderate".data)
  shedding := some ("moderate".data)
  groomingNeeds := some ("low".data)
  temperament := []
  lifespan := some ("12-16 years".data)
  compatibility := some { children := some true, otherDogs := some false, cats := some false }
  weight := some { lbs := some { min := 16, max := 32 }, kgs := some { min := 7, max := 15 } }

/-- Second concrete record: no compatibility, no weight, no lifespan. -/
def poodleDog : Record :=
  { baseDog with
    name := "Poodle".data
    lifespan := none
    compatibility := none
    weight := none }

/-- Third concrete record, name a superstring of baseDog's. -/
def longDog : Record :=
  { baseDog with name := "Dachshunds".data }

/-- Concrete catalog used by witnesses and counterexamples. -/
def demoCatalog : List Record := [poodleDog, longDog, baseDog]

/-- Claim C9: for all strings a and b, levenshteinDistance satisfies
distance(a, a) = 0, distance(a, "") = length(a), and symmetry
distance(a, b) = distance(b, a). -/
theorem levenshtein_algebraic_laws :
    ∀ a b : Str, levenshteinDistance a a = 0 ∧
      levenshteinDistance a [] = a.length ∧
      levenshteinDistance a b = levenshteinDistance b a :=
  fun a b =>
    ⟨levenshteinDistance_self a, levenshteinDistance_nil_right a,
      levenshteinDistance_comm a b⟩

/-- Claim C5: whenever findBreed matches with fuzzy disabled, the normalized
comparison name of the returned Record equals the normalized query exactly. -/
theorem findBreed_nonfuzzy_exact (catalog : List Record) (breed : Str) (lang : Str)
    (dog : Record)
    (h : findBreed catalog breed { fuzzy := false, lang := lang } = some dog) :
    normalizeBreed (comparisonName dog lang) = normalizeBreed breed := by
  rw [findBreed] at h
  have hp := List.find?_some h
  simpa using hp

/-- Witness for C5 at a concrete catalog and query. -/
theorem findBreed_nonfuzzy_exact_witness :
    findBreed demoCatalog (" DACHSHUND ".data) { fuzzy := false, lang := "en".data } =
        some baseDog ∧
      normalizeBreed (comparisonName baseDog ("en".data)) =
        normalizeBreed (" DACHSHUND ".data) :=
  ⟨by decide, findBreed_nonfuzzy_exact demoCatalog (" DACHSHUND ".data) ("en".data)
    baseDog (by decide)⟩

/-- Claim C7: getDogsByWeightRange is invariant under swapping the two bound
arguments, and under replacing the unit string by any alias resolving to the
same unit (in particular kg versus kilograms). -/
theorem byWeightRange_swap_and_alias_invariant :
    (∀ (catalog : List Record) (mn mx : ℚ) (u : Str),
        getDogsByWeightRange catalog mn mx u = getDogsByWeightRange catalog mx mn u) ∧
    (∀ (catalog : List Record) (mn mx : ℚ) (u1 u2 : Str), validateUnit u1 = validateUnit u2 →
        getDogsByWeightRange catalog mn mx u1 = getDogsByWeightRange catalog mn mx u2) ∧
    (∀ (catalog : List Record) (mn mx : ℚ),
        getDogsByWeightRange catalog mn mx ("kg".data) =
          getDogsByWeightRange catalog mn mx ("kilograms".data)) := by
  have halias : ∀ (catalog : List Record) (mn mx : ℚ) (u1 u2 : Str),
      validateUnit u1 = validateUnit u2 →
      getDogsByWeightRange catalog mn mx u1 = getDogsByWeightRange catalog mn mx u2 := by
    intro catalog mn mx u1 u2 h
    simp only [getDogsByWeightRange]
    rw [h]
  refine ⟨?_, halias, ?_⟩
  · intro catalog mn mx u
    simp only [getDogsByWeightRange]
    rw [min_comm mn mx, max_comm mn mx]
  · intro catalog mn mx
    exact halias catalog mn mx _ _ (by decide)

/-- Witness for C7: concrete alias pair and the bound swap at a concrete
catalog. -/
theorem byWeightRange_swap_and_alias_invariant_witness :
    validateUnit ("kg".data) = validateUnit ("kilograms".data) ∧
      getDogsByWeightRange demoCatalog 50 30 ("kg".data) =
        getDogsByWeightRange demoCatalog 50 30 ("kilograms".data) :=
  ⟨by decide,
    byWeightRange_swap_and_alias_invariant.2.1 demoCatalog 50 30 ("kg".data)
      ("kilograms".data) (by decide)⟩

/-- Counterexample for C4: with an unknown first query and a blank second
query, compareBreeds raises NonEmptyStringError for the second argument, not a
not-found error naming the first, so the claim fails for blank y. -/
theorem compareBreeds_blank_second_cex :
    findBreed demoCatalog ("zzzz".data) { fuzzy := true } = none ∧
      compareBreeds demoCatalog ("zzzz".data) (" ".data) =
        .error (.nonEmptyString ("Breed 2".data)) ∧
      compareBreeds demoCatalog ("zzzz".data) (" ".data) ≠
        .error (.notFound ("zzzz".data)) := by
  decide

/-- Claim C4 (amended): for an unknown first query and any second query that is
non-blank after trimming, compareBreeds raises the not-found Error naming the
first query (a constructor distinct from NonEmptyStringError), independently of
whether the second query resolves. -/
theorem compareBreeds_unknown_first (catalog : List Record) (x y : Str)
    (hx : (trimStr x).isEmpty = false) (hy : (trimStr y).isEmpty = false)
    (hfx : findBreed catalog x { fuzzy := true } = none) :
    compareBreeds catalog x y = .error (.notFound x) := by
  rw [compareBreeds, getDogBreedData, getDogBreedData]
  simp [validateNonEmptyString, hx, hy, hfx, Bind.bind, Except.bind, Pure.pure, Except.pure]

/-- Witness for C4's amended theorem at a concrete catalog. -/
theorem compareBreeds_unknown_first_witness :
    (trimStr ("zzzz".data)).isEmpty = false ∧
      (trimStr ("poodle".data)).isEmpty = false ∧
      findBreed demoCatalog ("zzzz".data) { fuzzy := true } = none ∧
      compareBreeds demoCatalog ("zzzz".data) ("poodle".data) =
        .error (.notFound ("zzzz".data)) :=
  ⟨by decide, by decide, by decide,
    compareBreeds_unknown_first demoCatalog ("zzzz".data) ("poodle".data)
      (by decide) (by decide) (by decide)⟩

lemma recommendPred_parts {p : Preferences} {dog : Record} (h : recommendPred p dog = true) :
    scalarOk p.size dog.size = true ∧ scalarOk p.energyLevel dog.energyLevel = true ∧
      scalarOk p.trainability dog.trainability = true ∧
      scalarOk p.shedding dog.shedding = true ∧
      scalarOk p.groomingNeeds dog.groomingNeeds = true ∧
      scalarOk p.origin dog.origin = true ∧
      compatOk p dog = true ∧ weightOk p dog = true ∧ lifespanOk p dog = true := by
  rw [recommendPred] at h
  simp only [Bool.and_eq_true] at h
  tauto

/-- Record with a truthy but unparseable lifespan string. -/
def unknownLifeDog : Record :=
  { baseDog with lifespan := some ("unknown".data) }

/-- Preferences asking for a minimum lifespan of 5 years and nothing else. -/
def minLifespanPrefs : Preferences := { minLifespan := 5 }

/-- Counterexample for C2: with a positive minLifespan, a Record whose truthy
lifespan string fails to parse is retained by getRecommendedBreeds, while the
claim says such a Record is excluded. -/
theorem recommend_minLifespan_cex :
    (0 : ℚ) < minLifespanPrefs.minLifespan ∧
      unknownLifeDog.lifespan = some ("unknown".data) ∧
      parseLifespanAverage ("unknown".data) = none ∧
      getRecommendedBreeds [unknownLifeDog] minLifespanPrefs = [unknownLifeDog] := by
  decide

/-- Claim C2 (amended): with a positive minLifespan, getRecommendedBreeds
excludes each Record whose parsed average lifespan is below minLifespan, and
each Record lacking a non-empty lifespan string; a Record whose non-empty
lifespan fails to parse is NOT excluded by the lifespan criterion. -/
theorem recommend_minLifespan_filters (catalog : List Record) (p : Preferences)
    (h : 0 < p.minLifespan) :
    ∀ dog ∈ getRecommendedBreeds catalog p,
      ∃ ls, dog.lifespan = some ls ∧ ls.isEmpty = false ∧
        ∀ avg, parseLifespanAverage ls = some avg → p.minLifespan ≤ avg := by
  intro dog hmem
  have hls := (recommendPred_parts ((List.mem_filter.mp hmem).2)).2.2.2.2.2.2.2.2
  rw [lifespanOk] at hls
  have hpos : decide (0 < p.minLifespan) = true := decide_eq_true h
  rw [hpos] at hls
  cases hdl : dog.lifespan with
  | none =>
    rw [hdl] at hls
    simp [truthyStr] at hls
  | some ls =>
    rw [hdl] at hls
    by_cases hemp : ls.isEmpty = true
    · simp [truthyStr, hemp] at hls
    · have hemp' : ls.isEmpty = false := by simpa using hemp
      refine ⟨ls, rfl, hemp', ?_⟩
      intro avg havg
      rw [show truthyStr (some ls) = true by simp [truthyStr, hemp']] at hls
      simp only [Bool.true_and, if_true] at hls
      rw [havg] at hls
      simpa [not_lt] using hls

/-- Witness for C2's amended theorem: a concrete catalog where the surviving
Record has a parseable lifespan averaging at least the bound. -/
theorem recommend_minLifespan_filters_witness :
    (0 : ℚ) < minLifespanPrefs.minLifespan ∧
      ∀ dog ∈ getRecommendedBreeds [baseDog] minLifespanPrefs,
        ∃ ls, dog.lifespan = some ls ∧ ls.isEmpty = false ∧
          ∀ avg, parseLifespanAverage ls = some avg → minLifespanPrefs.minLifespan ≤ avg :=
  ⟨by decide, recommend_minLifespan_filters [baseDog] minLifespanPrefs (by decide)⟩

/-- Claim C3: with a weightRange supplied, every Record returned by
getRecommendedBreeds has weight data, has data for the selected unit, and that
range overlaps the raw [min, max] exactly as given (no auto-sorting); the unit
selection matches only the literal string kgs, so the alias kg still selects
the lbs data (no alias expansion). -/
theorem recommend_weightRange_filters (catalog : List Record) (p : Preferences)
    (wr : WeightRangeCriteria) (hw : p.weightRange = some wr) :
    (∀ dog ∈ getRecommendedBreeds catalog p,
        ∃ w wd, dog.weight = some w ∧ selectedWeightData wr w = some wd ∧
          ¬(wd.max < wr.min ∨ wd.min > wr.max)) ∧
    (∀ (w : Weight) (wr' : WeightRangeCriteria), wr'.unit = some ("kg".data) →
        selectedWeightData wr' w = w.lbs) := by
  constructor
  · intro dog hmem
    have hwt := (recommendPred_parts ((List.mem_filter.mp hmem).2)).2.2.2.2.2.2.2.1
    rw [weightOk, hw] at hwt
    cases hdw : dog.weight with
    | none =>
      simp only [hdw] at hwt
      exact Bool.noConfusion hwt
    | some w =>
      simp only [hdw] at hwt
      cases hsel : selectedWeightData wr w with
      | none =>
        simp only [hsel] at hwt
        exact Bool.noConfusion hwt
      | some wd =>
        simp only [hsel] at hwt
        refine ⟨w, wd, rfl, hsel, ?_⟩
        simp only [Bool.not_eq_true', Bool.or_eq_false_iff, decide_eq_false_iff_not] at hwt
        exact not_or.mpr hwt
  · intro w wr' hu
    rw [selectedWeightData, hu]
    rw [show jsOrStr (some ("kg".data)) ("lbs".data) = "kg".data from rfl]
    rw [show (("kg".data : Str) == ("kgs".data : Str)) = false from rfl]
    simp

/-- Witness for C3 at a concrete catalog and weight range. -/
theorem recommend_weightRange_filters_witness :
    ({ weightRange := some { min := 10, max := 40, unit := some ("lbs".data) } } :
        Preferences).weightRange = some { min := 10, max := 40, unit := some ("lbs".data) } ∧
      ∀ dog ∈ getRecommendedBreeds demoCatalog
          { weightRange := some { min := 10, max := 40, unit := some ("lbs".data) } },
        ∃ w wd, dog.weight = some w ∧
          selectedWeightData { min := 10, max := 40, unit := some ("lbs".data) } w = some wd ∧
          ¬(wd.max < (10 : ℚ) ∨ wd.min > (40 : ℚ)) :=
  ⟨rfl, (recommend_weightRange_filters demoCatalog
    { weightRange := some { min := 10, max := 40, unit := some ("lbs".data) } }
    { min := 10, max := 40, unit := some ("lbs".data) } rfl).1⟩

/-- Record with no compatibility object. -/
def noCompatDog : Record :=
  { baseDog with compatibility := none }

/-- Preferences supplying a compatibility object with zero boolean
constraints. -/
def emptyCompatPrefs : Preferences :=
  { compatibility := some { children := none, otherDogs := none, cats := none } }

/-- Counterexample for C8: a compatibility object with no boolean constraint
still excludes every Record lacking a compatibility object, while the claim
says exclusion happens exactly when at least one constraint is supplied. -/
theorem recommend_compat_cex :
    emptyCompatPrefs.compatibility = some { children := none, otherDogs := none, cats := none } ∧
      noCompatDog.compatibility = none ∧
      getRecommendedBreeds [noCompatDog] emptyCompatPrefs = [] := by
  decide

/-- Claim C8 (amended): a Record lacking a compatibility object is excluded
exactly when a compatibility object is supplied, even one with no boolean
constraints; each of children/otherDogs/cats supplied as a boolean must equal
the Record's sub-field, and with no compatibility object supplied there is no
exclusion on compatibility grounds. -/
theorem recommend_compat_gate (catalog : List Record) (p : Preferences) :
    (∀ cc, p.compatibility = some cc →
        ∀ dog ∈ getRecommendedBreeds catalog p,
          ∃ dc, dog.compatibility = some dc ∧
            (∀ b, cc.children = some b → dc.children = some b) ∧
            (∀ b, cc.otherDogs = some b → dc.otherDogs = some b) ∧
            (∀ b, cc.cats = some b → dc.cats = some b)) ∧
    (p.compatibility = none → ∀ dog, compatOk p dog = true) := by
  constructor
  · intro cc hcc dog hmem
    have hcp := (recommendPred_parts ((List.mem_filter.mp hmem).2)).2.2.2.2.2.2.1
    rw [compatOk, hcc] at hcp
    cases hdc : dog.compatibility with
    | none => rw [hdc] at hcp; simp at hcp
    | some dc =>
      rw [hdc] at hcp
      simp only [Bool.and_eq_true] at hcp
      refine ⟨dc, rfl, ?_, ?_, ?_⟩
      · intro b hb
        have hx := hcp.1.1
        rw [hb] at hx
        simpa using hx
      · intro b hb
        have hx := hcp.1.2
        rw [hb] at hx
        simpa using hx
      · intro b hb
        have hx := hcp.2
        rw [hb] at hx
        simpa using hx
  · intro hnone dog
    rw [compatOk, hnone]

/-- Witness for C8's amended theorem at a concrete catalog and constraint. -/
theorem recommend_compat_gate_witness :
    ({ compatibility := some { children := some true } } : Preferences).compatibility =
        some { children := some true, otherDogs := none, cats := none } ∧
      ∀ dog ∈ getRecommendedBreeds demoCatalog
          { compatibility := some { children := some true } },
        ∃ dc, dog.compatibility = some dc ∧
          (∀ b, (some true : Option Bool) = some b → dc.children = some b) ∧
          (∀ b, (none : Option Bool) = some b → dc.otherDogs = some b) ∧
          (∀ b, (none : Option Bool) = some b → dc.cats = some b) :=
  ⟨rfl, (recommend_compat_gate demoCatalog
    { compatibility := some { children := some true } }).1
    { children := some true, otherDogs := none, cats := none } rfl⟩

/-- Claim C1: fuzzySearchBreeds returns the substring-containment matches in
catalog order followed by exactly the records within maxDistance (and not in
the first group), sorted by non-decreasing edit distance with ties in catalog
order, never interleaving the two groups. -/
theorem fuzzySearch_partition (catalog : List Record) (term : Str) (maxD : ℚ)
    (hterm : (trimStr term).isEmpty = false) (hmax : 0 ≤ maxD) :
    fuzzySearchBreeds catalog term maxD =
      .ok (catalog.filter (substrMatch (normalizeBreed term)) ++
        sortedFuzzy catalog (normalizeBreed term) maxD) ∧
    (sortedFuzzy catalog (normalizeBreed term) maxD).Pairwise
      (fun a b => levScore (normalizeBreed term) a ≤ levScore (normalizeBreed term) b) ∧
    (sortedFuzzy catalog (normalizeBreed term) maxD).Perm
      (catalog.filter (fuzzyFilterPred (normalizeBreed term) maxD)) ∧
    (∀ d : Nat,
      (sortedFuzzy catalog (normalizeBreed term) maxD).filter
          (fun r => levScore (normalizeBreed term) r == d) =
        (catalog.filter (fuzzyFilterPred (normalizeBreed term) maxD)).filter
          (fun r => levScore (normalizeBreed term) r == d)) ∧
    (∀ r ∈ sortedFuzzy catalog (normalizeBreed term) maxD,
      substrMatch (normalizeBreed term) r = false) := by
  refine ⟨?_, sortedFuzzy_pairwise _ _ _, sortedFuzzy_perm _ _ _,
    fun d => sortedFuzzy_filter_score _ _ _ d, ?_⟩
  · have hnn : ¬ maxD < 0 := not_lt.mpr hmax
    rw [fuzzySearchBreeds]
    simp [validateNonEmptyString, validateNonNegativeNumber, hterm, hnn,
      Bind.bind, Except.bind, Pure.pure, Except.pure, fuzzySearchList_eq]
  · intro r hr
    have h2 := (mem_sortedFuzzy hr).2
    simp only [fuzzyFilterPred] at h2
    simp only [substrMatch]
    cases hcond : (jsIncludes (normalizeBreed r.name) (normalizeBreed term) ||
        jsIncludes (normalizeBreed term) (normalizeBreed r.name)) with
    | false => rfl
    | true =>
      rw [hcond] at h2
      simp at h2

/-- Witness for C1 at a concrete catalog, term and distance bound. -/
theorem fuzzySearch_partition_witness :
    (trimStr ("daschund".data)).isEmpty = false ∧ (0 : ℚ) ≤ 3 ∧
      fuzzySearchBreeds demoCatalog ("daschund".data) 3 =
        .ok (demoCatalog.filter (substrMatch (normalizeBreed ("daschund".data))) ++
          sortedFuzzy demoCatalog (normalizeBreed ("daschund".data)) 3) :=
  ⟨by decide, by norm_num,
    (fuzzySearch_partition demoCatalog ("daschund".data) 3 (by decide) (by norm_num)).1⟩

/-- Claim C6: with maxDistance 0 the fuzzy pass is empty (a zero-distance match
would equal the normalized term and hence already be a substring match), so
the result is exactly the substring-containment matches. -/
theorem fuzzySearch_strict_zero (catalog : List Record) (term : Str)
    (hterm : (trimStr term).isEmpty = false) :
    fuzzySearchBreeds catalog term 0 =
      .ok (catalog.filter (substrMatch (normalizeBreed term))) ∧
    ∀ dog ∈ catalog.filter (substrMatch (normalizeBreed term)),
      normalizeBreed term <:+: normalizeBreed dog.name ∨
        normalizeBreed dog.name <:+: normalizeBreed term := by
  constructor
  · have hempty : catalog.filter (fuzzyFilterPred (normalizeBreed term) 0) = [] := by
      rw [List.filter_eq_nil_iff]
      intro dog hmem
      simp only [fuzzyFilterPred]
      cases hcond : (jsIncludes (normalizeBreed dog.name) (normalizeBreed term) ||
          jsIncludes (normalizeBreed term) (normalizeBreed dog.name)) with
      | true => simp
      | false =>
        simp only [Bool.false_eq_true, if_false]
        have hne : levenshteinDistance (normalizeBreed term) (normalizeBreed dog.name) ≠ 0 := by
          intro h0
          have heq := levenshteinDistance_eq_zero h0
          rw [Bool.or_eq_false_iff] at hcond
          have : jsIncludes (normalizeBreed dog.name) (normalizeBreed term) = true := by
            rw [← heq, jsIncludes]
            simp [List.infix_refl]
          rw [this] at hcond
          exact Bool.noConfusion hcond.1
        simpa [not_le] using hne
    have hsf : sortedFuzzy catalog (normalizeBreed term) 0 = [] := by
      rw [sortedFuzzy, scoredFuzzyMatches, hempty]
      simp
    rw [fuzzySearchBreeds]
    simp [validateNonEmptyString, validateNonNegativeNumber, hterm,
      Bind.bind, Except.bind, Pure.pure, Except.pure, fuzzySearchList_eq, hsf]
  · intro dog hmem
    have h := (List.mem_filter.mp hmem).2
    simp only [substrMatch, jsIncludes, Bool.or_eq_true, decide_eq_true_eq] at h
    tauto

/-- Witness for C6 at a concrete catalog and term. -/
theorem fuzzySearch_strict_zero_witness :
    (trimStr ("dachshund".data)).isEmpty = false ∧
      fuzzySearchBreeds demoCatalog ("dachshund".data) 0 =
        .ok (demoCatalog.filter (substrMatch (normalizeBreed ("dachshund".data)))) :=
  ⟨by decide, (fuzzySearch_strict_zero demoCatalog ("dachshund".data) (by decide)).1⟩

/-- Claim C10: every Record in the output of fuzzySearchBreeds is exactly one
of the catalog Records (so the transient _matchScore never appears in the
output and the catalog is not mutated, the whole embedding being pure). -/
theorem fuzzySearch_returns_catalog_records (catalog : List Record) (term : Str)
    (maxD : ℚ) (res : List Record)
    (h : fuzzySearchBreeds catalog term maxD = .ok res) :
    ∀ r ∈ res, r ∈ catalog := by
  rw [fuzzySearchBreeds] at h
  by_cases h1 : (trimStr term).isEmpty
  · simp [validateNonEmptyString, h1, Bind.bind, Except.bind] at h
  · by_cases h2 : maxD < 0
    · simp [validateNonEmptyString, validateNonNegativeNumber, h1, h2,
        Bind.bind, Except.bind] at h
    · simp only [validateNonEmptyString, validateNonNegativeNumber, h1, h2,
        Bind.bind, Except.bind, Pure.pure, Except.pure, if_false,
        Bool.false_eq_true, Except.ok.injEq] at h
      intro r hr
      rw [← h, fuzzySearchList_eq] at hr
      rcases List.mem_append.mp hr with hl | hrt
      · exact (List.mem_filter.mp hl).1
      · exact (mem_sortedFuzzy hrt).1

/-- Witness for C10 at a concrete catalog and term. -/
theorem fuzzySearch_returns_catalog_records_witness :
    fuzzySearchBreeds demoCatalog ("dachshund".data) 2 =
        .ok (fuzzySearchList demoCatalog (normalizeBreed ("dachshund".data)) 2) ∧
      ∀ r ∈ fuzzySearchList demoCatalog (normalizeBreed ("dachshund".data)) 2,
        r ∈ demoCatalog :=
  ⟨by
    rw [fuzzySearchBreeds]
    simp [validateNonEmptyString, validateNonNegativeNumber, Bind.bind, Except.bind,
      Pure.pure, Except.pure, show (trimStr ("dachshund".data)).isEmpty = false from by decide,
      show ¬ (2 : ℚ) < 0 from by norm_num],
   fuzzySearch_returns_catalog_records demoCatalog ("dachshund".data) 2
    (fuzzySearchList demoCatalog (normalizeBreed ("dachshund".data)) 2)
    (by
      rw [fuzzySearchBreeds]
      simp [validateNonEmptyString, validateNonNegativeNumber, Bind.bind, Except.bind,
        Pure.pure, Except.pure, show (trimStr ("dachshund".data)).isEmpty = false from by decide,
        show ¬ (2 : ℚ) < 0 from by norm_num])⟩
